import Mathlib

/-!
Shallow embedding of `src/src/mod_extforward.c` (lighttpd mod_extforward):
trusted-proxy evaluation, forwarding-header tokenization, reverse chain
walking, and per-connection address/scheme substitution with restore.

Modelling conventions:
* `buffer *` values are modelled as Lean `String`s (header values also as
  `List Char` where the C scans bytes one at a time);
* `sock_addr` is modelled by its address family together with an opaque
  numeric payload; `sock_addr.unspec` stands for `AF_UNSPEC`;
* the external textual-address conversion (`ipstr_to_sockaddr`, which calls
  `getaddrinfo`) is an external collaborator, modelled as an explicit
  conversion function argument `parse` whose `sock_addr.unspec` result marks
  conversion failure (the C checks `sock.plain.sa_family == AF_UNSPEC`);
* the host's `array` container (array.c is not part of the sources here) is
  modelled from the spec as an association list with the documented lookup
  behaviour.
-/

namespace Extforward

/-- ASCII byte of a character with uppercase letters lowered; `strcasecmp`
and the caseless buffer comparisons compare bytes case-insensitively. -/
def asciiLower (c : Char) : Nat :=
  if 65 ≤ c.toNat ∧ c.toNat ≤ 90 then c.toNat + 32 else c.toNat

/-- Case-insensitive string equality, as in `strcasecmp(a, b) == 0`,
`buffer_is_equal_caseless_string`, and `buffer_caseless_compare(..) == 0`. -/
def caselessEq (a b : String) : Bool :=
  a.data.map asciiLower == b.data.map asciiLower

/-- `sock_addr`: address family plus an opaque payload standing for the
`sockaddr_in` / `sockaddr_in6` bytes.  `unspec` is `AF_UNSPEC`. -/
inductive sock_addr where
  | unspec : sock_addr
  | inet : Nat → sock_addr
  | inet6 : Nat → sock_addr
deriving DecidableEq

/-- `handler_ctx`: per-connection context used to restore the remote ip. -/
structure handler_ctx where
  saved_remote_addr : sock_addr
  saved_remote_addr_buf : String
deriving DecidableEq

/-- The slice of `connection` state that mod_extforward reads and writes:
`con->dst_addr`, `con->dst_addr_buf`, `con->uri.scheme`,
`con->request.headers`, and the module's slot of `con->plugin_ctx`. -/
structure connection where
  dst_addr : sock_addr
  dst_addr_buf : String
  uri_scheme : String
  request_headers : List (String × String)
  plugin_ctx : Option handler_ctx
deriving DecidableEq

/-- Per-scope plugin configuration after `mod_extforward_patch_connection`:
`extforward.forwarder` and `extforward.headers`. -/
structure plugin_config where
  forwarder : List (String × String)
  headers : List String
deriving DecidableEq

/-- Modelled from the spec: `array_get_element` key lookup (array.c is not
among the sources).  Keys are exact textual matches, except that the
special key `"all"` is compared case-insensitively. -/
def array_get_element (a : List (String × String)) (key : String) : Option String :=
  if caselessEq key "all" then
    (a.find? (fun kv => caselessEq kv.1 "all")).map Prod.snd
  else
    (a.find? (fun kv => kv.1 == key)).map Prod.snd

/-- `is_proxy_trusted`: returns whether `ipstr` is a trusted proxy.  An
`"all"` entry short-circuits: its value decides for every input
(`strcasecmp(value, "trust") == 0`); otherwise membership of `ipstr` in
the forwarder array decides. -/
def is_proxy_trusted (ipstr : String) (forwarder : List (String × String)) : Bool :=
  match array_get_element forwarder "all" with
  | some allv => caselessEq allv "trust"
  | none => (array_get_element forwarder ipstr).isSome

/-- Loop of `last_not_in_array`: `for (i = a->used - 1; i >= 0; i--)`,
returning the first entry (scanning downward from index `n - 1`) that has
no entry in the forwarder array. -/
def last_not_in_array_go (a : List String) (forwarder : List (String × String)) : Nat → Option String
  | 0 => none
  | Nat.succ i =>
    match a[i]? with
    | some ip =>
      if array_get_element forwarder ip = none then some ip
      else last_not_in_array_go a forwarder i
    | none => last_not_in_array_go a forwarder i

/-- `last_not_in_array`: the address, scanning the chain from its last
element toward its first, of the last proxy that is not listed in the
forwarder array (`NULL` when every element is listed). -/
def last_not_in_array (a : List String) (forwarder : List (String × String)) : Option String :=
  last_not_in_array_go a forwarder a.length

/-- `mod_extforward_set_addr`: convert `addr` with the external conversion
`parse` (standing for `ipstr_to_sockaddr`); on `AF_UNSPEC` return `0`
(failure) with the connection untouched.  Otherwise, if this connection was
already patched, free the saved context (the code discards it without
restoring the saved address); then save the connection's current address
pair into a fresh context, and patch `dst_addr` / `dst_addr_buf`. -/
def mod_extforward_set_addr (parse : String → sock_addr) (con : connection) (addr : String) :
    Bool × connection :=
  let sock := parse addr
  if sock = sock_addr.unspec then (false, con)
  else
    let con1 :=
      match con.plugin_ctx with
      | some _ => { con with plugin_ctx := none }
      | none => con
    let hctx : handler_ctx :=
      { saved_remote_addr := con1.dst_addr, saved_remote_addr_buf := con1.dst_addr_buf }
    (true, { con1 with
              plugin_ctx := some hctx
              dst_addr := sock
              dst_addr_buf := addr })

/-- `mod_extforward_set_proto`: update `con->uri.scheme` from the forwarded
proto value when it is nonempty and differs (caselessly) from the current
scheme; only `"https"` and `"http"` (caselessly) are accepted, and they are
written in canonical lowercase. -/
def mod_extforward_set_proto (con : connection) (proto : String) : connection :=
  if proto.length != 0 && !(caselessEq con.uri_scheme proto) then
    if caselessEq proto "https" then { con with uri_scheme := "https" }
    else if caselessEq proto "http" then { con with uri_scheme := "http" }
    else con
  else con

/-- `mod_extforward_restore`: if a saved context exists, write the saved
address pair back into `dst_addr` / `dst_addr_buf`, free the context and
clear the plugin slot; otherwise do nothing. -/
def mod_extforward_restore (con : connection) : connection :=
  match con.plugin_ctx with
  | none => con
  | some hctx =>
    { con with
        dst_addr := hctx.saved_remote_addr
        dst_addr_buf := hctx.saved_remote_addr_buf
        plugin_ctx := none }

/-- Separator test of `extract_forward_array` while inside a token:
`(*curr > '9' || *curr < '0') && *curr != '.' && *curr != ':' &&
(*curr < 'a' || *curr > 'f') && (*curr < 'A' || *curr > 'F')`
(byte values: '0' = 48, '9' = 57, '.' = 46, ':' = 58, 'a' = 97, 'f' = 102,
'A' = 65, 'F' = 70). -/
def is_separator (c : Char) : Bool :=
  (c.toNat > 57 || c.toNat < 48) && c.toNat != 46 && c.toNat != 58 &&
    (c.toNat < 97 || c.toNat > 102) && (c.toNat < 65 || c.toNat > 70)

/-- Token-start test of `extract_forward_array` while outside a token:
`(*curr >= '0' && *curr <= '9') || *curr == ':' ||
(*curr >= 'a' && *curr <= 'f') || (*curr >= 'A' && *curr <= 'F')`
(note: `'.'` is not accepted as a leading character). -/
def is_start_char (c : Char) : Bool :=
  (48 ≤ c.toNat && c.toNat ≤ 57) || c.toNat == 58 ||
    (97 ≤ c.toNat && c.toNat ≤ 102) || (65 ≤ c.toNat && c.toNat ≤ 70)

/-- `put_string_into_array_len`: append the token to the result unless its
length is zero. -/
def put_string_into_array_len (ary : List (List Char)) (tok : List Char) : List (List Char) :=
  if tok.length = 0 then ary else ary ++ [tok]

/-- The scan loop of `extract_forward_array`: `inStr` is the `in_str` state
variable, `cur` the token accumulated since `base`, `acc` the result array.
A separator while inside a token emits the token; a start character while
outside opens a new token; reaching the end of the input while inside a
token emits the trailing token. -/
def extract_forward_go : List Char → Bool → List Char → List (List Char) → List (List Char)
  | [], true, cur, acc => put_string_into_array_len acc cur
  | [], false, _, acc => acc
  | c :: cs, true, cur, acc =>
    if is_separator c then extract_forward_go cs false [] (put_string_into_array_len acc cur)
    else extract_forward_go cs true (cur ++ [c]) acc
  | c :: cs, false, _, acc =>
    if is_start_char c then extract_forward_go cs true [c] acc
    else extract_forward_go cs false [] acc

/-- `extract_forward_array`: tokenize a forwarding-header value into an
ordered array of address tokens. -/
def extract_forward_array (pbuffer : List Char) : List (List Char) :=
  if pbuffer.isEmpty then [] else extract_forward_go pbuffer false [] []

/-- First present configured header: the loop
`for (k = 0; k < headers->used && NULL == forwarded; ++k)` looking each
configured header name up in the request headers. -/
def first_forward_header (names : List String) (request_headers : List (String × String)) :
    Option String :=
  names.findSome? (fun nm => array_get_element request_headers nm)

/-- `mod_extforward_X_Forwarded_For`: tokenize the header value, walk the
chain for the last address not in the forwarder array, and if one is found
patch the connection address; when that succeeded and `X-Forwarded-Proto`
is present, also update the scheme. -/
def mod_extforward_X_Forwarded_For (parse : String → sock_addr) (p : plugin_config)
    (con : connection) (x_forwarded_for : String) : connection :=
  let forward_array := (extract_forward_array x_forwarded_for.data).map (fun t => String.mk t)
  match last_not_in_array forward_array p.forwarder with
  | none => con
  | some real_remote_addr =>
    let x_forwarded_proto := array_get_element con.request_headers "X-Forwarded-Proto"
    let res := mod_extforward_set_addr parse con real_remote_addr
    match res.1, x_forwarded_proto with
    | true, some proto => mod_extforward_set_proto res.2 proto
    | _, _ => res.2

/-- `mod_extforward_uri_handler`: pick the first configured forwarding
header present on the request (skip when none), refuse to act when the
connection's own peer address is not a trusted proxy, and otherwise process
the header value. -/
def mod_extforward_uri_handler (parse : String → sock_addr) (p : plugin_config)
    (con : connection) : connection :=
  match first_forward_header p.headers con.request_headers with
  | none => con
  | some forwarded =>
    if is_proxy_trusted con.dst_addr_buf p.forwarder then
      mod_extforward_X_Forwarded_For parse p con forwarded
    else con

/-- Character classifier of spec §4.2: a character belongs to a token iff
it is one of `0-9` (48–57), `a-f` (97–102), `A-F` (65–70), `'.'` (46),
`':'` (58). -/
def isAddrChar (c : Char) : Bool :=
  (48 ≤ c.toNat && c.toNat ≤ 57) || (97 ≤ c.toNat && c.toNat ≤ 102) ||
    (65 ≤ c.toNat && c.toNat ≤ 70) || c.toNat == 46 || c.toNat == 58

/-- Spec-side tokenization (§4.2 as written): the maximal runs of
characters satisfying `p`, in left-to-right order; characters outside `p`
separate runs and belong to none. -/
def maximalRuns (p : Char → Bool) (cs : List Char) : List (List Char) :=
  match cs with
  | [] => []
  | c :: rest =>
    if p c then (c :: rest.takeWhile p) :: maximalRuns p (rest.dropWhile p)
    else maximalRuns p rest
termination_by cs.length
decreasing_by
  · simp only [List.length_cons]
    have h := (List.dropWhile_sublist p (l := rest)).length_le
    omega
  · simp only [List.length_cons]
    omega

/-- The token the scanner emits for one maximal alphabet run: leading `'.'`
characters are skipped (they are in the alphabet but are not accepted as
token-starting characters), and a run of only dots yields no token. -/
def tokenOfRun (run : List Char) : Option (List Char) :=
  match run.dropWhile (fun c => c.toNat == 46) with
  | [] => none
  | d :: ds => some (d :: ds)

/-- The sequence of tokens the scanner emits for an input: one (possibly
absent) token per maximal alphabet run. -/
def runTokens (cs : List Char) : List (List Char) :=
  (maximalRuns isAddrChar cs).filterMap tokenOfRun

/-- Modelled from the spec (§4.4): `ApplyScheme(connectionState, schemeText)`
as the spec words it — no-op when `schemeText` caselessly equals the current
scheme, canonical lowercase update for caseless `"https"` / `"http"`, and
every other value ignored. -/
def ApplyScheme_spec (con : connection) (schemeText : String) : connection :=
  if caselessEq schemeText con.uri_scheme then con
  else if caselessEq schemeText "https" then { con with uri_scheme := "https" }
  else if caselessEq schemeText "http" then { con with uri_scheme := "http" }
  else con

/-! ## Helper lemmas -/

lemma caselessEq_comm (a b : String) : caselessEq a b = caselessEq b a := by
  unfold caselessEq
  by_cases h : a.data.map asciiLower = b.data.map asciiLower
  · rw [h]
  · have h2 : ¬ b.data.map asciiLower = a.data.map asciiLower := fun hh => h hh.symm
    simp [h, h2]

lemma is_separator_eq_not_addr (c : Char) : is_separator c = !(isAddrChar c) := by
  rw [Bool.eq_iff_iff]
  simp only [is_separator, isAddrChar, Bool.and_eq_true, Bool.or_eq_true,
    Bool.not_eq_true', Bool.not_eq_true, Bool.and_eq_false_iff, Bool.or_eq_false_iff,
    decide_eq_true_eq, decide_eq_false_iff_not, bne_iff_ne, ne_eq, beq_iff_eq, beq_eq_false_iff_ne]
  omega

lemma is_start_char_eq_addr_not_dot (c : Char) :
    is_start_char c = (isAddrChar c && c.toNat != 46) := by
  rw [Bool.eq_iff_iff]
  simp only [is_start_char, isAddrChar, Bool.and_eq_true, Bool.or_eq_true,
    decide_eq_true_eq, bne_iff_ne, ne_eq, beq_iff_eq]
  omega

lemma maximalRuns_nil (p : Char → Bool) : maximalRuns p [] = [] := by
  simp [maximalRuns]

lemma maximalRuns_cons_pos (p : Char → Bool) (c : Char) (cs : List Char) (h : p c = true) :
    maximalRuns p (c :: cs) = (c :: cs.takeWhile p) :: maximalRuns p (cs.dropWhile p) := by
  rw [maximalRuns]
  simp [h]

lemma maximalRuns_cons_neg (p : Char → Bool) (c : Char) (cs : List Char) (h : p c = false) :
    maximalRuns p (c :: cs) = maximalRuns p cs := by
  rw [maximalRuns]
  simp [h]

lemma tokenOfRun_dot_cons (c : Char) (run : List Char) (h : c.toNat = 46) :
    tokenOfRun (c :: run) = tokenOfRun run := by
  unfold tokenOfRun
  rw [List.dropWhile_cons_of_pos (by simp [h])]

lemma tokenOfRun_not_dot_cons (c : Char) (run : List Char) (h : (c.toNat == 46) = false) :
    tokenOfRun (c :: run) = some (c :: run) := by
  unfold tokenOfRun
  rw [List.dropWhile_cons_of_neg (by simp [h])]

lemma runTokens_nil : runTokens [] = [] := by
  simp [runTokens, maximalRuns_nil]

lemma runTokens_sep_cons (c : Char) (cs : List Char) (h : isAddrChar c = false) :
    runTokens (c :: cs) = runTokens cs := by
  simp [runTokens, maximalRuns_cons_neg _ _ _ h]

lemma runTokens_dot_cons (c : Char) (cs : List Char) (h : c.toNat = 46) :
    runTokens (c :: cs) = runTokens cs := by
  have haddr : isAddrChar c = true := by simp [isAddrChar, h]
  cases cs with
  | nil =>
    rw [runTokens, maximalRuns_cons_pos _ _ _ haddr]
    simp only [List.takeWhile_nil, List.dropWhile_nil, maximalRuns_nil]
    rw [List.filterMap_cons_none (by unfold tokenOfRun; rw [List.dropWhile_cons_of_pos (by simp [h])]; rfl)]
    simp [runTokens_nil]
  | cons d cs2 =>
    cases hd : isAddrChar d with
    | true =>
      rw [runTokens, maximalRuns_cons_pos _ _ _ haddr, runTokens, maximalRuns_cons_pos _ _ _ hd]
      rw [List.takeWhile_cons_of_pos hd, List.dropWhile_cons_of_pos hd]
      cases htok : tokenOfRun (d :: List.takeWhile isAddrChar cs2) with
      | none =>
        rw [List.filterMap_cons_none (by rw [tokenOfRun_dot_cons _ _ h]; exact htok),
          List.filterMap_cons_none htok]
      | some t =>
        rw [List.filterMap_cons_some (by rw [tokenOfRun_dot_cons _ _ h]; exact htok),
          List.filterMap_cons_some htok]
    | false =>
      rw [runTokens, maximalRuns_cons_pos _ _ _ haddr, runTokens, maximalRuns_cons_neg _ _ _ hd]
      rw [List.takeWhile_cons_of_neg (by simp [hd]), List.dropWhile_cons_of_neg (by simp [hd])]
      rw [maximalRuns_cons_neg _ _ _ hd]
      rw [List.filterMap_cons_none (by unfold tokenOfRun; rw [List.dropWhile_cons_of_pos (by simp [h])]; rfl)]

/-- Invariant of the scan loop: in the outside-token state the loop appends
exactly the remaining run tokens; in the inside-token state it first closes
the open token with the longest remaining alphabet run. -/
lemma extract_forward_go_spec (cs : List Char) :
    (∀ acc, extract_forward_go cs false [] acc = acc ++ runTokens cs) ∧
    (∀ cur acc, cur ≠ [] →
      extract_forward_go cs true cur acc =
        acc ++ (cur ++ cs.takeWhile isAddrChar) :: runTokens (cs.dropWhile isAddrChar)) := by
  induction cs with
  | nil =>
    constructor
    · intro acc
      simp [extract_forward_go, runTokens_nil]
    · intro cur acc hcur
      have hlen : ¬ cur.length = 0 := by simpa [List.length_eq_zero] using hcur
      simp [extract_forward_go, put_string_into_array_len, hlen, runTokens_nil]
  | cons c cs ih =>
    obtain ⟨ihOut, ihIn⟩ := ih
    constructor
    · intro acc
      simp only [extract_forward_go]
      cases hs : is_start_char c with
      | true =>
        have haddr : isAddrChar c = true := by
          have := is_start_char_eq_addr_not_dot c
          rw [hs] at this
          exact (Bool.and_eq_true _ _).mp this.symm |>.1
        have hdot : (c.toNat == 46) = false := by
          have := is_start_char_eq_addr_not_dot c
          rw [hs] at this
          have h2 := (Bool.and_eq_true _ _).mp this.symm |>.2
          simpa using h2
        rw [if_pos rfl]
        rw [ihIn [c] acc (by simp)]
        have hr : runTokens (c :: cs) =
            (c :: cs.takeWhile isAddrChar) :: runTokens (cs.dropWhile isAddrChar) := by
          rw [runTokens, maximalRuns_cons_pos _ _ _ haddr,
            List.filterMap_cons_some (tokenOfRun_not_dot_cons c _ hdot)]
          rfl
        rw [hr]
        rfl
      | false =>
        rw [if_neg (by simp)]
        cases haddr : isAddrChar c with
        | true =>
          have hdot : c.toNat = 46 := by
            have := is_start_char_eq_addr_not_dot c
            rw [hs, haddr] at this
            simpa using this.symm
          rw [ihOut acc, runTokens_dot_cons c cs hdot]
        | false =>
          rw [ihOut acc, runTokens_sep_cons c cs haddr]
    · intro cur acc hcur
      simp only [extract_forward_go]
      cases hsep : is_separator c with
      | true =>
        have haddr : isAddrChar c = false := by
          have := is_separator_eq_not_addr c
          rw [hsep] at this
          simpa using this.symm
        have hlen : ¬ cur.length = 0 := by simpa [List.length_eq_zero] using hcur
        rw [if_pos rfl, ihOut (put_string_into_array_len acc cur)]
        rw [put_string_into_array_len, if_neg hlen]
        rw [List.takeWhile_cons_of_neg (by simp [haddr]),
          List.dropWhile_cons_of_neg (by simp [haddr]),
          runTokens_sep_cons c cs haddr]
        simp
      | false =>
        have haddr : isAddrChar c = true := by
          have := is_separator_eq_not_addr c
          rw [hsep] at this
          simpa using this.symm
        rw [if_neg (by simp)]
        rw [ihIn (cur ++ [c]) acc (by simp)]
        rw [List.takeWhile_cons_of_pos haddr, List.dropWhile_cons_of_pos haddr]
        simp

/-- The downward index loop of `last_not_in_array` on indices below `n`
agrees with a first-match scan of the reversed `n`-element prefix. -/
lemma last_not_in_array_go_eq (a : List String) (forwarder : List (String × String)) :
    ∀ n, n ≤ a.length →
      last_not_in_array_go a forwarder n =
        (a.take n).reverse.find? (fun ip => (array_get_element forwarder ip).isNone) := by
  intro n
  induction n with
  | zero =>
    intro _
    simp [last_not_in_array_go]
  | succ i ih =>
    intro hn
    have hi : i < a.length := hn
    rw [last_not_in_array_go]
    cases hget : a[i]? with
    | none =>
      exfalso
      rw [List.getElem?_eq_none_iff] at hget
      omega
    | some x =>
      have htake : (a.take (i + 1)).reverse = x :: (a.take i).reverse := by
        rw [List.take_succ, hget]
        simp
      rw [htake]
      show (if array_get_element forwarder x = none then some x
            else last_not_in_array_go a forwarder i) =
        List.find? (fun ip => (array_get_element forwarder ip).isNone)
          (x :: (List.take i a).reverse)
      cases he : array_get_element forwarder x with
      | none =>
        rw [if_pos rfl, List.find?_cons_of_pos _ (by simp [he])]
      | some v =>
        rw [if_neg (by simp), List.find?_cons_of_neg _ (by simp [he])]
        exact ih (le_of_lt hi)

/-- A conversion failure makes `mod_extforward_set_addr` return `0` with the
connection untouched. -/
lemma set_addr_unspec_eq (parse : String → sock_addr) (con : connection) (addr : String)
    (h : parse addr = sock_addr.unspec) :
    mod_extforward_set_addr parse con addr = (false, con) := by
  simp [mod_extforward_set_addr, h]

/-- A successful `mod_extforward_set_addr` on a connection with no active
substitution is inverted exactly by `mod_extforward_restore`. -/
lemma set_addr_fresh_restore (parse : String → sock_addr) (con : connection) (addr : String)
    (h0 : con.plugin_ctx = none) (h1 : ¬ parse addr = sock_addr.unspec) :
    mod_extforward_restore (mod_extforward_set_addr parse con addr).2 = con := by
  obtain ⟨da, dab, us, rh, pc⟩ := con
  simp only at h0
  subst h0
  simp [mod_extforward_set_addr, h1, mod_extforward_restore]

/-- `mod_extforward_restore` writes only the saved address fields and the
plugin slot: the scheme and request headers are never touched. -/
lemma restore_scheme_headers_frame (c : connection) :
    (mod_extforward_restore c).uri_scheme = c.uri_scheme ∧
    (mod_extforward_restore c).request_headers = c.request_headers := by
  unfold mod_extforward_restore
  cases c.plugin_ctx <;> simp

/-! ## Claim theorems -/

/-- C1: when the connection's immediate peer address is reported untrusted
by `is_proxy_trusted`, `mod_extforward_uri_handler` performs no substitution
at all: the entire connection state — peer address, its textual form, the
scheme, and the plugin slot — is unchanged, no matter which forwarding
headers are present or what they contain. -/
theorem uri_handler_untrusted_peer_no_substitution (parse : String → sock_addr)
    (p : plugin_config) (con : connection)
    (h : is_proxy_trusted con.dst_addr_buf p.forwarder = false) :
    mod_extforward_uri_handler parse p con = con := by
  unfold mod_extforward_uri_handler
  cases hf : first_forward_header p.headers con.request_headers with
  | none => rfl
  | some fwd => simp [h]

/-- Witness for C1: untrusted peer `192.0.2.1` with `X-Forwarded-For:
203.0.113.9` present leaves the connection unchanged. -/
theorem uri_handler_untrusted_peer_no_substitution_witness :
    is_proxy_trusted "192.0.2.1" [("10.0.0.232", "trust")] = false ∧
    mod_extforward_uri_handler (fun _ => sock_addr.unspec)
      { forwarder := [("10.0.0.232", "trust")], headers := ["X-Forwarded-For"] }
      { dst_addr := sock_addr.inet 1, dst_addr_buf := "192.0.2.1", uri_scheme := "http",
        request_headers := [("X-Forwarded-For", "203.0.113.9")], plugin_ctx := none } =
      { dst_addr := sock_addr.inet 1, dst_addr_buf := "192.0.2.1", uri_scheme := "http",
        request_headers := [("X-Forwarded-For", "203.0.113.9")], plugin_ctx := none } :=
  ⟨by decide, uri_handler_untrusted_peer_no_substitution _ _ _ (by decide)⟩

/-- C2 counterexample: with the configuration `[("all", "trust")]`,
`is_proxy_trusted` reports every address trusted, so by the claim the walk
should return none on any chain; yet `last_not_in_array` still returns the
chain's token — it tests raw membership in the forwarder array, not
`is_proxy_trusted`. -/
theorem last_not_in_array_ignores_all_trust :
    is_proxy_trusted "203.0.113.9" [("all", "trust")] = true ∧
    last_not_in_array ["203.0.113.9"] [("all", "trust")] = some "203.0.113.9" := by
  exact ⟨by decide, by decide⟩

/-- C2 (amended): `last_not_in_array` walks the chain in reverse order and
returns the first token that has no entry of its own in the forwarder
array (raw membership via `array_get_element`, not `is_proxy_trusted`; an
`"all"` entry confers no trust on chain tokens).  When every token is
listed in the array, or the chain is empty, the result is none (the find
on the reversed chain fails). -/
theorem last_not_in_array_eq_reverse_find (a : List String)
    (forwarder : List (String × String)) :
    last_not_in_array a forwarder =
      a.reverse.find? (fun ip => (array_get_element forwarder ip).isNone) := by
  unfold last_not_in_array
  have h := last_not_in_array_go_eq a forwarder a.length le_rfl
  rwa [List.take_length] at h

/-- C3: the code violates this claim.  Starting from original peer
`9.9.9.9`, two successful `mod_extforward_set_addr` calls (to `10.0.0.1`
then `10.0.0.2`) followed by one `mod_extforward_restore` leave the
connection at the intermediate address `10.0.0.1` installed by the first
call, not at the original `9.9.9.9`: the re-entrant branch discards the
saved context without preserving (or restoring) the original address. -/
theorem double_set_addr_restore_gives_intermediate :
    mod_extforward_restore
      (mod_extforward_set_addr
        (fun s => if s = "10.0.0.1" then sock_addr.inet 1
                  else if s = "10.0.0.2" then sock_addr.inet 2 else sock_addr.unspec)
        (mod_extforward_set_addr
          (fun s => if s = "10.0.0.1" then sock_addr.inet 1
                    else if s = "10.0.0.2" then sock_addr.inet 2 else sock_addr.unspec)
          { dst_addr := sock_addr.inet 9, dst_addr_buf := "9.9.9.9", uri_scheme := "http",
            request_headers := [], plugin_ctx := none } "10.0.0.1").2 "10.0.0.2").2 =
      { dst_addr := sock_addr.inet 1, dst_addr_buf := "10.0.0.1", uri_scheme := "http",
        request_headers := [], plugin_ctx := none } ∧
    ("10.0.0.1" : String) ≠ "9.9.9.9" := by
  exact ⟨by decide, by decide⟩

/-- C4: `is_proxy_trusted` returns true for every input when an `"all"`
entry exists whose value caselessly equals `"trust"`; returns false for
every input when an `"all"` entry exists with any other value (even for
addresses holding their own `"trust"` entry, since the input is never
consulted); and otherwise returns exactly the membership of the input text
in the forwarder entries. -/
theorem is_proxy_trusted_cases (forwarder : List (String × String)) (ip : String) :
    (∀ v, array_get_element forwarder "all" = some v → caselessEq v "trust" = true →
      is_proxy_trusted ip forwarder = true) ∧
    (∀ v, array_get_element forwarder "all" = some v → caselessEq v "trust" = false →
      is_proxy_trusted ip forwarder = false) ∧
    (array_get_element forwarder "all" = none →
      is_proxy_trusted ip forwarder = (array_get_element forwarder ip).isSome) := by
  refine ⟨?_, ?_, ?_⟩
  · intro v hall htr
    simp [is_proxy_trusted, hall, htr]
  · intro v hall htr
    simp [is_proxy_trusted, hall, htr]
  · intro hall
    simp [is_proxy_trusted, hall]

/-- Witness for C4: the spec's own example — `{"all": "no"}` together with
`{"10.0.0.1": "trust"}` still makes `10.0.0.1` untrusted. -/
theorem is_proxy_trusted_cases_witness :
    array_get_element [("all", "no"), ("10.0.0.1", "trust")] "all" = some "no" ∧
    caselessEq "no" "trust" = false ∧
    is_proxy_trusted "10.0.0.1" [("all", "no"), ("10.0.0.1", "trust")] = false :=
  ⟨by decide, by decide,
    (is_proxy_trusted_cases [("all", "no"), ("10.0.0.1", "trust")] "10.0.0.1").2.1 "no"
      (by decide) (by decide)⟩

/-- C5 counterexample: on input `".1"` the scanner produces the token `"1"`,
while the maximal alphabet runs of the input are `[".1"]` — a token never
starts with `'.'` because the token-start test of the scanner does not
accept `'.'`, so the parser does not return exactly the maximal runs. -/
theorem extract_forward_array_not_maximal_runs :
    extract_forward_array ['.', '1'] = [['1']] ∧
    maximalRuns isAddrChar ['.', '1'] = [['.', '1']] ∧
    extract_forward_array ['.', '1'] ≠ maximalRuns isAddrChar ['.', '1'] := by
  have h2 : maximalRuns isAddrChar ['.', '1'] = [['.', '1']] := by
    rw [maximalRuns_cons_pos _ _ _ (by decide),
      (by decide : List.takeWhile isAddrChar ['1'] = ['1']),
      (by decide : List.dropWhile isAddrChar ['1'] = ([] : List Char)),
      maximalRuns_nil]
  refine ⟨by decide, h2, ?_⟩
  rw [h2]
  decide

/-- C5 (amended): the scanner returns, in left-to-right order, one token per
maximal run of alphabet characters (`0-9`, `a-f`, `A-F`, `'.'`, `':'`),
except that the leading `'.'` characters of a run are dropped (the scanner
does not open a token at `'.'`) and a run of only dots yields no token;
every other character is a separator appearing in no token, a token still
open at the end of the input is emitted, and an empty or all-separator
input yields the empty sequence. -/
theorem extract_forward_array_eq_runTokens (cs : List Char) :
    extract_forward_array cs = runTokens cs := by
  cases cs with
  | nil =>
    simp [extract_forward_array, runTokens_nil]
  | cons c cs2 =>
    unfold extract_forward_array
    rw [if_neg (by simp)]
    have h := (extract_forward_go_spec (c :: cs2)).1 []
    simpa using h

/-- C6: with no substitution active, a successful `mod_extforward_set_addr`
followed immediately by `mod_extforward_restore` restores the connection —
in particular its structured address and textual form — bit-identically. -/
theorem set_addr_then_restore_roundtrip (parse : String → sock_addr) (con : connection)
    (addr : String) (h0 : con.plugin_ctx = none)
    (h1 : (mod_extforward_set_addr parse con addr).1 = true) :
    mod_extforward_restore (mod_extforward_set_addr parse con addr).2 = con := by
  by_cases hps : parse addr = sock_addr.unspec
  · rw [set_addr_unspec_eq parse con addr hps] at h1
    simp at h1
  · exact set_addr_fresh_restore parse con addr h0 hps

/-- Witness for C6: a concrete successful substitution to `203.0.113.9`
round-trips back to the original `9.9.9.9` state. -/
theorem set_addr_then_restore_roundtrip_witness :
    (mod_extforward_set_addr
        (fun s => if s = "203.0.113.9" then sock_addr.inet 3 else sock_addr.unspec)
        { dst_addr := sock_addr.inet 9, dst_addr_buf := "9.9.9.9", uri_scheme := "http",
          request_headers := [], plugin_ctx := none } "203.0.113.9").1 = true ∧
    mod_extforward_restore
        (mod_extforward_set_addr
          (fun s => if s = "203.0.113.9" then sock_addr.inet 3 else sock_addr.unspec)
          { dst_addr := sock_addr.inet 9, dst_addr_buf := "9.9.9.9", uri_scheme := "http",
            request_headers := [], plugin_ctx := none } "203.0.113.9").2 =
      { dst_addr := sock_addr.inet 9, dst_addr_buf := "9.9.9.9", uri_scheme := "http",
        request_headers := [], plugin_ctx := none } :=
  ⟨by decide, set_addr_then_restore_roundtrip _ _ _ rfl (by decide)⟩

/-- C7: when the address text fails to convert to a structured address,
`mod_extforward_set_addr` returns failure and performs no mutation at all:
the connection (address, textual form, saved state) is returned exactly as
it was, and no substitution becomes active. -/
theorem set_addr_conversion_failure_no_mutation (parse : String → sock_addr)
    (con : connection) (addr : String) (h : parse addr = sock_addr.unspec) :
    mod_extforward_set_addr parse con addr = (false, con) :=
  set_addr_unspec_eq parse con addr h

/-- Witness for C7: an always-failing conversion leaves a concrete
connection untouched. -/
theorem set_addr_conversion_failure_no_mutation_witness :
    (fun _ : String => sock_addr.unspec) "not-an-ip" = sock_addr.unspec ∧
    mod_extforward_set_addr (fun _ => sock_addr.unspec)
      { dst_addr := sock_addr.inet 9, dst_addr_buf := "9.9.9.9", uri_scheme := "http",
        request_headers := [], plugin_ctx := none } "not-an-ip" =
      (false,
        { dst_addr := sock_addr.inet 9, dst_addr_buf := "9.9.9.9", uri_scheme := "http",
          request_headers := [], plugin_ctx := none }) :=
  ⟨rfl, set_addr_conversion_failure_no_mutation _ _ _ rfl⟩

/-- C8: `mod_extforward_set_proto` implements the spec's `ApplyScheme`
contract exactly — no-op when the text caselessly equals the current
scheme, canonical lowercase update for caseless `"https"` / `"http"`,
and every other value (including the empty string) leaves the scheme
unchanged. -/
theorem set_proto_eq_ApplyScheme_spec (con : connection) (proto : String) :
    mod_extforward_set_proto con proto = ApplyScheme_spec con proto := by
  unfold mod_extforward_set_proto ApplyScheme_spec
  by_cases heq : caselessEq proto con.uri_scheme = true
  · have heq2 : caselessEq con.uri_scheme proto = true := by
      rw [caselessEq_comm]
      exact heq
    simp [heq, heq2]
  · have heqf : caselessEq proto con.uri_scheme = false := by simpa using heq
    have heq2 : caselessEq con.uri_scheme proto = false := by
      rw [caselessEq_comm]
      exact heqf
    rcases hd : proto.data with _ | ⟨c, cs⟩
    · have hlen : proto.length = 0 := by
        simp [String.length, hd]
      have hh1 : caselessEq proto "https" = false := by simp [caselessEq, hd]
      have hh2 : caselessEq proto "http" = false := by simp [caselessEq, hd]
      simp [heqf, heq2, hlen, hh1, hh2]
    · have hlen : proto.length ≠ 0 := by
        simp [String.length, hd]
      simp [heqf, heq2, hlen]

/-- C9: `mod_extforward_restore` never modifies the connection's scheme
(nor its request headers) — the address fields and the plugin slot are all
it writes — so a scheme installed by `mod_extforward_set_proto` stays in
place after the restore runs. -/
theorem restore_never_reverts_scheme (con : connection) :
    (mod_extforward_restore con).uri_scheme = con.uri_scheme ∧
    (mod_extforward_restore con).request_headers = con.request_headers ∧
    (mod_extforward_restore (mod_extforward_set_proto con "https")).uri_scheme =
      (mod_extforward_set_proto con "https").uri_scheme :=
  ⟨(restore_scheme_headers_frame con).1, (restore_scheme_headers_frame con).2,
    (restore_scheme_headers_frame _).1⟩

/-- C10: with a substitution already active after a first successful
`mod_extforward_set_addr`, a second call whose address text fails to
convert returns failure with the connection unchanged (the failure exit
precedes the re-entrant state reset), and a later `mod_extforward_restore`
still restores exactly the state saved by the earlier successful call. -/
theorem failed_set_addr_keeps_earlier_save (parse : String → sock_addr) (con : connection)
    (a b : String) (h0 : con.plugin_ctx = none) (ha : ¬ parse a = sock_addr.unspec)
    (hb : parse b = sock_addr.unspec) :
    mod_extforward_set_addr parse (mod_extforward_set_addr parse con a).2 b =
      (false, (mod_extforward_set_addr parse con a).2) ∧
    mod_extforward_restore (mod_extforward_set_addr parse con a).2 = con :=
  ⟨set_addr_unspec_eq parse _ b hb, set_addr_fresh_restore parse con a h0 ha⟩

/-- Witness for C10: after substituting `10.0.0.1`, a failing second call
changes nothing and the restore returns to the original `9.9.9.9` state. -/
theorem failed_set_addr_keeps_earlier_save_witness :
    mod_extforward_set_addr
        (fun s => if s = "10.0.0.1" then sock_addr.inet 1 else sock_addr.unspec)
        (mod_extforward_set_addr
          (fun s => if s = "10.0.0.1" then sock_addr.inet 1 else sock_addr.unspec)
          { dst_addr := sock_addr.inet 9, dst_addr_buf := "9.9.9.9", uri_scheme := "http",
            request_headers := [], plugin_ctx := none } "10.0.0.1").2 "bogus" =
      (false,
        (mod_extforward_set_addr
          (fun s => if s = "10.0.0.1" then sock_addr.inet 1 else sock_addr.unspec)
          { dst_addr := sock_addr.inet 9, dst_addr_buf := "9.9.9.9", uri_scheme := "http",
            request_headers := [], plugin_ctx := none } "10.0.0.1").2) ∧
    mod_extforward_restore
        (mod_extforward_set_addr
          (fun s => if s = "10.0.0.1" then sock_addr.inet 1 else sock_addr.unspec)
          { dst_addr := sock_addr.inet 9, dst_addr_buf := "9.9.9.9", uri_scheme := "http",
            request_headers := [], plugin_ctx := none } "10.0.0.1").2 =
      { dst_addr := sock_addr.inet 9, dst_addr_buf := "9.9.9.9", uri_scheme := "http",
        request_headers := [], plugin_ctx := none } :=
  failed_set_addr_keeps_earlier_save _ _ _ _ rfl (by decide) (by decide)

end Extforward
